import Mathlib

/-!
Shallow embedding of the resource-aware scheduler in
`src/py/flwr/server/strategy/resource_aware_fedavg.py` (class
`ResourceAwareFedAvg`), together with theorems settling the frozen claims
about its specification.

Modelling conventions:
* Python floats (memory telemetry in MB, predicted durations in seconds,
  fractional GPU shares) are embedded as exact rationals `ℚ`.
* Python ints (weights / `num_steps`, capacities) are embedded as `Int`
  (or `Nat` where the source guarantees non-negativity).
* Python dicts keyed by `(node_id, gpu_uuid)` are embedded as ordered
  association lists (`List (κ × β)`), matching the insertion order that
  drives `node_gpu_mapping = [k for k in self.resources_model.keys()]`.
* Fallible Python code (uncaught `ValueError` from `min`/`max` of an empty
  sequence, `IndexError` from indexing an empty slice or popping an empty
  list, `ZeroDivisionError`, `KeyError`) is embedded as `Except`.
-/

namespace ResourceAware

/-- Device identity `(node_id, gpu_uuid)`: the key of `self.resources_model`. -/
structure DevKey where
  node_id : String
  gpu_uuid : String
deriving DecidableEq

/-- The value stored in `self.resources_model[(node_id, gpu_uuid)]`: a pair
`(Polynomial, max_num_clients)`.  The numpy `Polynomial` is represented by its
coefficient list (lowest degree first), the capacity `max_num_clients` by an
`Int` (the source stores the raw result of Python `int(...)`, which can be any
integer). -/
structure PerfModel where
  coefficients : List ℚ
  capacity : Int
deriving DecidableEq

/-- Ordered map from device identity to its performance model, embedding the
Python dict `self.resources_model` (insertion ordered). -/
abbrev ModelsMap := List (DevKey × PerfModel)

/-- Evaluation of a numpy `Polynomial` given by its coefficient list at a
point: `c0 + c1*x + c2*x^2 + ...` (Horner form). -/
def polyEval (cs : List ℚ) (x : ℚ) : ℚ :=
  cs.foldr (fun c acc => c + x * acc) 0

/-- Association-list lookup, embedding Python dict read `d[k]` (`none` embeds
a `KeyError`). -/
def lookupAssoc {κ β : Type} [DecidableEq κ] : List (κ × β) → κ → Option β
  | [], _ => none
  | (k, v) :: rest, k0 => if k = k0 then some v else lookupAssoc rest k0

/-- Association-list write, embedding Python dict assignment `d[k] = v`:
an existing key keeps its position (Python dicts preserve insertion order on
overwrite), a new key is appended at the end. -/
def setAssoc {κ β : Type} [DecidableEq κ] : List (κ × β) → κ → β → List (κ × β)
  | [], k0, v0 => [(k0, v0)]
  | (k, v) :: rest, k0, v0 =>
      if k = k0 then (k0, v0) :: rest else (k, v) :: setAssoc rest k0 v0

/-- The module-level constant `MAX_POLY_DEG: int = 15` (line 56 of the
source). -/
def MAX_POLY_DEG : Int := 15

/-- The pool `list(range(5, 31, 5))` from which `__init__` draws
`self.warm_up_steps = choice(list(range(5, 31, 5)), size=resource_poly_degree + 1,
replace=False)`. -/
def warmUpPool : List Int := [5, 10, 15, 20, 25, 30]

/-- Semantics of `numpy.random.choice(pool, size=k, replace=False)`: the call
succeeds exactly when it can return `k` pairwise-distinct elements of `pool`
(otherwise numpy raises `ValueError`).  `ws` ranges over its possible
results. -/
def IsChoiceNoReplace (pool : List Int) (k : Nat) (ws : List Int) : Prop :=
  ws.length = k ∧ ws.Nodup ∧ ∀ x ∈ ws, x ∈ pool

/-- The constructor `__init__` can draw its `warm_up_steps` (i.e. the
`numpy.random.choice` call does not raise) iff some valid draw of
`resource_poly_degree + 1` distinct sizes from the pool exists. -/
def mkWarmUpStepsOK (D : Nat) : Prop :=
  ∃ ws, IsChoiceNoReplace warmUpPool (D + 1) ws

/-- The coefficient list built by `create_model` (lines 172-176):
`coefficients = (self.resource_poly_degree + 1) * [0.0]; coefficients[0] = 1.0`,
i.e. `1` followed by `deg` zeros. -/
def identityCoeffs (deg : Nat) : List ℚ :=
  1 :: List.replicate deg 0

/-- `create_model` (lines 172-176): stores the identity polynomial together
with capacity `1` under `(node_id, gpu_uuid)` in `self.resources_model`. -/
def create_model (models : ModelsMap) (dev : DevKey) (deg : Nat) : ModelsMap :=
  setAssoc models dev ⟨identityCoeffs deg, 1⟩

/-- Errors that the round-1 capacity update of `aggregate_fit` can raise:
`zeroDivision` embeds Python's `ZeroDivisionError` from
`... / max_mem_used_this_gpu`, `keyError` embeds a `KeyError` on
`self.resources_model[(node_id, gpu_uuid)]`. -/
inductive EstErr where
  | zeroDivision : EstErr
  | keyError : EstErr
deriving DecidableEq

/-- Python `int(q)` on a float: truncation toward zero. -/
def pyTrunc (q : ℚ) : Int :=
  if 0 ≤ q then ⌊q⌋ else ⌈q⌉

/-- The capacity computation of `aggregate_fit` for `server_round == 1`
(lines 391-398):
`int((total_mem_this_gpu - max_all_proc_mem + max_mem_used_this_gpu) / max_mem_used_this_gpu)`.
The source has no guard: a zero `max_mem_used_this_gpu` raises
`ZeroDivisionError` (embedded as `.error .zeroDivision`). -/
def estimateCapacity (total allOther thisTask : ℚ) : Except EstErr Int :=
  if thisTask = 0 then .error .zeroDivision
  else .ok (pyTrunc ((total - allOther + thisTask) / thisTask))

/-- The per-telemetry-record model update of `aggregate_fit` for
`server_round == 1` (lines 384-404): computes the capacity estimate, then
reads the existing model and stores `(poly_model, max_num_clients_this_gpu)`
back — the polynomial is kept, the raw estimate is stored with no clamping. -/
def updateCapacityRound1 (models : ModelsMap) (dev : DevKey)
    (total allOther thisTask : ℚ) : Except EstErr ModelsMap :=
  match estimateCapacity total allOther thisTask with
  | .error e => .error e
  | .ok cap =>
      match lookupAssoc models dev with
      | none => .error .keyError
      | some m => .ok (setAssoc models dev ⟨m.coefficients, cap⟩)

/-- The model refit of `aggregate_fit` for `server_round == 2`
(lines 438-444): every entry `(m, max_num_clients)` of `self.resources_model`
is replaced by `(m.fit(x, y, deg), max_num_clients)`.  The numpy least-squares
fit is an external library call; it is abstracted by the parameter `fitFn`
giving the fitted coefficients per device.  The capacity is kept unchanged. -/
def updateCoeffsRound2 (fitFn : DevKey → List ℚ) (models : ModelsMap) : ModelsMap :=
  models.map (fun p => (p.1, PerfModel.mk (fitFn p.1) p.2.capacity))

/-- The effect of `aggregate_fit` (lines 348-446) on `self.resources_model`,
by round number: round 1 folds the capacity update over the received memory
telemetry records `(device, total, allOther, thisTask)`; round 2 refits every
polynomial; every other round leaves the map untouched (the method falls
through to `super().aggregate_fit`). -/
def aggregateFitModels (round : Nat) (telemetry : List (DevKey × ℚ × ℚ × ℚ))
    (fitFn : DevKey → List ℚ) (models : ModelsMap) : Except EstErr ModelsMap :=
  if round = 1 then
    telemetry.foldlM (fun ms t => updateCapacityRound1 ms t.1 t.2.1 t.2.2.1 t.2.2.2) models
  else if round = 2 then .ok (updateCoeffsRound2 fitFn models)
  else .ok models

/-- Errors `associate_resources` (lines 184-237) can raise: `noCapacity`
embeds the `ValueError` that `min(expected_training_times)` (line 198) or
`max(expected_training_times)` (line 235) raises on an empty sequence (that
is, when `self.resources_model` is empty), `invalidModel` embeds the
`IndexError` of `these_clients[0]` (line 223) when the batch slice is empty
(capacity `<= 0`), `keyError` an out-of-range `node_gpu_mapping[idx]`. -/
inductive AssignError where
  | noCapacity : AssignError
  | invalidModel : AssignError
  | keyError : AssignError
deriving DecidableEq

/-- Weight-descending comparison used by
`clients_with_weights.sort(key=lambda x: x[1], reverse=True)` (line 190):
`a` may precede `b` iff `b`'s weight is at most `a`'s. -/
def wge (a b : String × Int) : Prop := b.2 ≤ a.2

instance : DecidableRel wge := fun a b => inferInstanceAs (Decidable (b.2 ≤ a.2))

instance : IsTotal (String × Int) wge := ⟨fun a b => le_total b.2 a.2⟩

instance : IsTrans (String × Int) wge := ⟨fun _ _ _ h1 h2 => le_trans h2 h1⟩

/-- The in-place `clients_with_weights.sort(key=lambda x: x[1], reverse=True)`
(line 190).  Python's sort is stable; insertion sort with the non-strict
descending comparison `wge` is the stable descending sort: on a weight tie the
earlier element stays first. -/
def sortUnitsDesc (units : List (String × Int)) : List (String × Int) :=
  List.insertionSort wge units

/-- Python `min(l)` on a non-empty list (the `getD` default is irrelevant:
every use is guarded by non-emptiness, and `min([])` is embedded as an error
at the call site). -/
def listMin (l : List ℚ) : ℚ := l.min?.getD 0

/-- Python `l.index(min(l))` (line 198): the first index holding the minimum
value. -/
def idxOfMin (l : List ℚ) : Nat :=
  l.findIdx (fun x => decide (x = listMin l))

/-- One entry of the produced assignment: client id, the chosen device, the
fractional GPU share `1 / actual_num_clients` written into
`client.resources["num_gpu"]`, and the client's weight (`num_steps`, recorded
into `self.client_configs_map`). -/
abbrev AssignEntry := String × DevKey × ℚ × Int

/-- The `while clients_with_weights:` loop of `associate_resources`
(lines 196-233), embedded with an explicit step counter.  Each iteration
consumes at least one unit (otherwise it raises), so the counter never runs
out when it starts at the length of the unit list; the `0` case for a
non-empty unit list is therefore unreachable from `assignCore` and is mapped
to an error.  Per iteration: pick the device of minimum expected load
(`idx = expected_training_times.index(min(expected_training_times))`, an
empty load list raises `ValueError`); slice the first
`actual_num_clients = min(max_num_clients, len(clients_with_weights))` units
(an empty slice makes `these_clients[0]` raise `IndexError`); add
`model_poly(these_clients[0][1])` — the polynomial at the weight of the first
unit of the batch — to that device's expected load; emit one entry with share
`1 / actual_num_clients` per unit of the batch; drop the batch. -/
def assignLoopF (models : ModelsMap) :
    List ℚ → Nat → List (String × Int) → Except AssignError (List AssignEntry × List ℚ)
  | loads, _, [] => .ok ([], loads)
  | _, 0, _ :: _ => .error .invalidModel
  | loads, fuel + 1, u :: rest =>
      if loads = [] then .error .noCapacity
      else
        let idx := idxOfMin loads
        match models[idx]? with
        | none => .error .keyError
        | some dm =>
            let k := min dm.2.capacity (Int.ofNat (u :: rest).length)
            if k.toNat = 0 then .error .invalidModel
            else
              let batch := (u :: rest).take k.toNat
              let dur := polyEval dm.2.coefficients (u.2 : ℚ)
              let loads1 := loads.set idx (loads.getD idx 0 + dur)
              let share := (1 : ℚ) / (k.toNat : ℚ)
              match assignLoopF models loads1 fuel ((u :: rest).drop k.toNat) with
              | .error e => .error e
              | .ok (ps, fl) =>
                  .ok (batch.map (fun c => (c.1, dm.1, share, c.2)) ++ ps, fl)

/-- The result of one `associate_resources` pass: the emitted assignment
entries in order, and the reported projected makespan
`max(expected_training_times)` (line 235). -/
structure AssignOut where
  fit_list : List AssignEntry
  makespan : ℚ
deriving DecidableEq

/-- The computational content of `associate_resources` (lines 184-237) as a
function of the model map and the weighted unit list: sort the units by
weight descending (stable), initialise one expected load `0.0` per model map
entry, run the greedy loop, and report `max(expected_training_times)`
(`ValueError` on an empty sequence, i.e. an empty model map). -/
def assignCore (models : ModelsMap) (units : List (String × Int)) :
    Except AssignError AssignOut :=
  let sorted := sortUnitsDesc units
  match assignLoopF models (List.replicate models.length 0) sorted.length sorted with
  | .error e => .error e
  | .ok (pairs, loads) =>
      match loads.max? with
      | none => .error .noCapacity
      | some mk => .ok ⟨pairs, mk⟩

/-- Strategy state relevant to the claims: the owned model map
`self.resources_model`, the record `self.client_configs_map`
(`cid -> (node_id, gpu_uuid, num_steps)`), the calibration sizes
`self.warm_up_steps` drawn once in `__init__`, and
`self.resource_poly_degree`. -/
structure StratState where
  resources_model : ModelsMap
  client_configs_map : List (String × DevKey × Int)
  warm_up_steps : List Int
  resource_poly_degree : Nat
deriving DecidableEq

/-- The writes `self.client_configs_map[client.cid] = (node_id, gpu_uuid, num_steps)`
performed for every unit of every batch (line 230), in emission order. -/
def writeConfigs (m : List (String × DevKey × Int)) (fl : List AssignEntry) :
    List (String × DevKey × Int) :=
  fl.foldl (fun acc e => setAssoc acc e.1 (e.2.1, e.2.2.2)) m

/-- `associate_resources` (lines 184-237) as a state transformer: the
assignment is computed from `self.resources_model` and the unit list alone
(the loop reads no other mutable attribute), and the only attribute written
is `self.client_configs_map`. -/
def associate_resources (s : StratState) (units : List (String × Int)) :
    Except AssignError (StratState × AssignOut) :=
  match assignCore s.resources_model units with
  | .error e => .error e
  | .ok out =>
      .ok ({ s with client_configs_map := writeConfigs s.client_configs_map out.fit_list },
           out)

/-- Modelled from the spec (claim C1 wording): the index of "the device with
the minimum current `expectedLoad` (on a load tie, the first device in the
fixed device order)" — the first index whose load is at most every load. -/
def specArgmin (loads : List ℚ) : Nat :=
  loads.findIdx (fun x => decide (∀ y ∈ loads, x ≤ y))

/-- Modelled from the spec (claim C1 wording): the "largest weight in the
batch" (the `getD` default is irrelevant: the batch is non-empty wherever
this is used). -/
def specMaxWeight (batch : List (String × Int)) : Int :=
  ((batch.map Prod.snd).max?).getD 0

/-- Modelled from the spec (claim C1 wording): the scheduling loop as the
claim states it — repeatedly the device with minimum current expected load is
chosen (first in fixed order on a tie), a batch of
`min(capacity, remaining)` largest remaining units is taken from the front,
the device's load is increased by `predict(largest weight in the batch)`,
every unit of the batch is assigned with fractional share `1/len(batch)`, and
the batch is removed.  Identical to `assignLoopF` except in the three phrases
the claim words differently: the argmin formulation, the weight the model is
evaluated at, and the share denominator. -/
def specAssignLoopF (models : ModelsMap) :
    List ℚ → Nat → List (String × Int) → Except AssignError (List AssignEntry × List ℚ)
  | loads, _, [] => .ok ([], loads)
  | _, 0, _ :: _ => .error .invalidModel
  | loads, fuel + 1, u :: rest =>
      if loads = [] then .error .noCapacity
      else
        let idx := specArgmin loads
        match models[idx]? with
        | none => .error .keyError
        | some dm =>
            let k := min dm.2.capacity (Int.ofNat (u :: rest).length)
            if k.toNat = 0 then .error .invalidModel
            else
              let batch := (u :: rest).take k.toNat
              let dur := polyEval dm.2.coefficients ((specMaxWeight batch : Int) : ℚ)
              let loads1 := loads.set idx (loads.getD idx 0 + dur)
              let share := (1 : ℚ) / (batch.length : ℚ)
              match specAssignLoopF models loads1 fuel ((u :: rest).drop k.toNat) with
              | .error e => .error e
              | .ok (ps, fl) =>
                  .ok (batch.map (fun c => (c.1, dm.1, share, c.2)) ++ ps, fl)

/-- Modelled from the spec (claim C1 wording): the whole `assign` pass — sort
by weight descending with ties keeping original order, then run the loop of
the claim. -/
def specAssignCore (models : ModelsMap) (units : List (String × Int)) :
    Except AssignError AssignOut :=
  let sorted := sortUnitsDesc units
  match specAssignLoopF models (List.replicate models.length 0) sorted.length sorted with
  | .error e => .error e
  | .ok (pairs, loads) =>
      match loads.max? with
      | none => .error .noCapacity
      | some mk => .ok ⟨pairs, mk⟩

/-- Error of `configure_fit` for `server_round == 2`: `clients.pop()`
(line 309) on an exhausted client list raises `IndexError`. -/
inductive CfgErr where
  | indexError : CfgErr
deriving DecidableEq

/-- The inner loop `for num_local_steps in self.warm_up_steps:` of
`configure_fit` round 2 (lines 308-325) for one device `k`: pop one client
per calibration size and emit `(cid, k, num_local_steps)`.  The client list
is consumed head-first (the caller reverses it once, embedding
`clients.pop()` from the end). -/
def assignSteps (k : DevKey) :
    List Int → List String → Option (List (String × DevKey × Int) × List String)
  | [], cs => some ([], cs)
  | _ :: _, [] => none
  | w :: ws, c :: cs =>
      match assignSteps k ws cs with
      | none => none
      | some (l, cs1) => some ((c, k, w) :: l, cs1)

/-- The outer loop `for node_id, gpu_uuid in self.resources_model.keys():` of
`configure_fit` round 2 (lines 300-325): every device receives one probe per
calibration size, consuming clients from the shared list. -/
def assignProbes (ws : List Int) :
    List DevKey → List String → Option (List (String × DevKey × Int) × List String)
  | [], cs => some ([], cs)
  | k :: ks, cs =>
      match assignSteps k ws cs with
      | none => none
      | some (l1, cs1) =>
          match assignProbes ws ks cs1 with
          | none => none
          | some (l2, cs2) => some (l1 ++ l2, cs2)

/-- `configure_fit` for `server_round == 2` (lines 292-325): for every device
of `self.resources_model` (in fixed order) and every size in
`self.warm_up_steps`, pop a sampled client (from the end of the list, hence
the `reverse`) and configure it with that size on that device; record each
pair in `self.client_configs_map`.  Neither `self.warm_up_steps` nor
`self.resources_model` is written. -/
def configure_fit_round2 (s : StratState) (clients : List String) :
    Except CfgErr (StratState × List (String × DevKey × Int)) :=
  match assignProbes s.warm_up_steps (s.resources_model.map Prod.fst) clients.reverse with
  | none => .error .indexError
  | some (l, _) =>
      .ok ({ s with client_configs_map :=
               l.foldl (fun acc e => setAssoc acc e.1 e.2) s.client_configs_map },
           l)

/-- The probe sizes that the round-2 configuration list `l` issues to device
`k`, in order. -/
def probeSteps (k : DevKey) (l : List (String × DevKey × Int)) : List Int :=
  (l.filter (fun e => decide (e.2.1 = k))).map (fun e => e.2.2)

/-- A fixed device identity used for concrete inputs. -/
def devN : DevKey := ⟨"node-1", "gpu-0"⟩

/-- A second fixed device identity used for concrete inputs. -/
def devM : DevKey := ⟨"node-1", "gpu-1"⟩

theorem lookupAssoc_setAssoc_self {κ β : Type} [DecidableEq κ]
    (l : List (κ × β)) (k : κ) (v : β) :
    lookupAssoc (setAssoc l k v) k = some v := by
  induction l with
  | nil => simp [setAssoc, lookupAssoc]
  | cons p rest ih =>
      obtain ⟨k1, v1⟩ := p
      by_cases h : k1 = k
      · simp [setAssoc, lookupAssoc, h]
      · simp [setAssoc, lookupAssoc, h, ih]

theorem lookupAssoc_setAssoc_ne {κ β : Type} [DecidableEq κ]
    (l : List (κ × β)) (k k1 : κ) (v : β) (h : k1 ≠ k) :
    lookupAssoc (setAssoc l k v) k1 = lookupAssoc l k1 := by
  have hnk : ¬ (k = k1) := fun e => h e.symm
  induction l with
  | nil => simp [setAssoc, lookupAssoc, hnk]
  | cons p rest ih =>
      obtain ⟨k2, v2⟩ := p
      by_cases h2 : k2 = k
      · subst h2
        simp [setAssoc, lookupAssoc, hnk]
      · by_cases h3 : k2 = k1
        · simp [setAssoc, lookupAssoc, h2, h3, h]
        · simp [setAssoc, lookupAssoc, h2, h3, ih]

/-- C3 counterexample: at `totalMemory = 100`, `peakAllOther = 450`,
`peakThisTask = 200` (all positive), the code computes `int(-0.75) = 0` by
truncation toward zero, while the claimed `floor(-0.75)` is `-1`. -/
theorem claim_C3_counterexample :
    estimateCapacity 100 450 200 = .ok 0 ∧
    ⌊(((100 : ℚ) - 450 + 200) / 200 : ℚ)⌋ = -1 ∧ (0 : Int) ≠ -1 := by
  refine ⟨?_, ?_, by decide⟩
  · have hq : ((100 : ℚ) - 450 + 200) / 200 = -3 / 4 := by norm_num
    simp only [estimateCapacity, if_neg (by norm_num : ¬ (200 : ℚ) = 0), hq, pyTrunc]
    rw [if_neg (by norm_num : ¬ (0 : ℚ) ≤ -3 / 4)]
    rw [show ⌈(-3 / 4 : ℚ)⌉ = 0 from by rw [Int.ceil_eq_iff]; norm_num]
  · rw [show ((100 : ℚ) - 450 + 200) / 200 = -3 / 4 from by norm_num]
    rw [Int.floor_eq_iff]; norm_num

/-- C3 amended: for positive `peakMemoryThisTask`, the round-1 capacity
estimate is the truncation toward zero of
`(totalMemory - peakAllOther + peakThisTask) / peakThisTask`; it coincides
with the floor whenever the numerator is non-negative, and in particular
`totalMemory=1000, peakAllOther=400, peakThisTask=200` yields capacity 4. -/
theorem claim_C3_amended (total allOther thisTask : ℚ) (hp : 0 < thisTask) :
    estimateCapacity total allOther thisTask
      = .ok (pyTrunc ((total - allOther + thisTask) / thisTask)) ∧
    (0 ≤ total - allOther + thisTask →
      pyTrunc ((total - allOther + thisTask) / thisTask)
        = ⌊(total - allOther + thisTask) / thisTask⌋) ∧
    estimateCapacity 1000 400 200 = .ok 4 := by
  refine ⟨?_, ?_, ?_⟩
  · simp only [estimateCapacity, if_neg hp.ne']
  · intro h
    rw [pyTrunc, if_pos (div_nonneg h hp.le)]
  · have hq : ((1000 : ℚ) - 400 + 200) / 200 = 4 := by norm_num
    simp only [estimateCapacity, if_neg (by norm_num : ¬ (200 : ℚ) = 0), hq, pyTrunc]
    rw [if_pos (by norm_num : (0 : ℚ) ≤ 4)]
    rw [show ⌊(4 : ℚ)⌋ = 4 from by rw [Int.floor_eq_iff]; norm_num]

/-- C3 witness: the amended theorem applied at
`total = 1000, allOther = 400, thisTask = 200`. -/
theorem claim_C3_witness :
    (0 : ℚ) < 200 ∧
    (estimateCapacity 1000 400 200
        = .ok (pyTrunc (((1000 : ℚ) - 400 + 200) / 200)) ∧
      (0 ≤ (1000 : ℚ) - 400 + 200 →
        pyTrunc (((1000 : ℚ) - 400 + 200) / 200)
          = ⌊(((1000 : ℚ) - 400 + 200) / 200 : ℚ)⌋) ∧
      estimateCapacity 1000 400 200 = .ok 4) :=
  ⟨by norm_num, claim_C3_amended 1000 400 200 (by norm_num)⟩

/-- C4 counterexample: with telemetry `total = 1000, allOther = 1100,
thisTask = 200` the memory-based estimate is `int(0.5) = 0`, and the round-1
update stores capacity `0` — there is no clamp to `1`, so the invariant
`capacity >= 1` is violated after the mutation. -/
theorem claim_C4_counterexample :
    updateCapacityRound1 (create_model [] devN 1) devN 1000 1100 200
      = .ok [(devN, ⟨identityCoeffs 1, 0⟩)] ∧
    ¬ (1 ≤ (PerfModel.mk (identityCoeffs 1) 0).capacity) := by
  refine ⟨?_, by decide⟩
  have hq : ((1000 : ℚ) - 1100 + 200) / 200 = 1 / 2 := by norm_num
  simp only [updateCapacityRound1, estimateCapacity,
    if_neg (by norm_num : ¬ (200 : ℚ) = 0), hq, pyTrunc]
  rw [if_pos (by norm_num : (0 : ℚ) ≤ 1 / 2)]
  rw [show ⌊(1 / 2 : ℚ)⌋ = 0 from by rw [Int.floor_eq_iff]; norm_num]
  simp [create_model, setAssoc, lookupAssoc]

/-- C4 amended: models are created with capacity 1 (so `capacity >= 1` holds
after creation), but the round-1 update stores the raw truncated estimate
with no clamping, so an estimate of 0 is stored as capacity 0 and the
invariant can fail after the round-1 mutation. -/
theorem claim_C4_amended :
    (∀ (models : ModelsMap) (dev : DevKey) (deg : Nat),
       lookupAssoc (create_model models dev deg) dev
         = some ⟨identityCoeffs deg, 1⟩ ∧
       (1 : Int) ≤ (PerfModel.mk (identityCoeffs deg) 1).capacity) ∧
    (∀ (models : ModelsMap) (dev : DevKey) (total allOther thisTask : ℚ)
       (m : PerfModel), thisTask ≠ 0 → lookupAssoc models dev = some m →
       updateCapacityRound1 models dev total allOther thisTask
         = .ok (setAssoc models dev
             ⟨m.coefficients, pyTrunc ((total - allOther + thisTask) / thisTask)⟩)) := by
  constructor
  · intro models dev deg
    exact ⟨lookupAssoc_setAssoc_self models dev _, le_refl 1⟩
  · intro models dev total allOther thisTask m hp hl
    simp only [updateCapacityRound1, estimateCapacity, if_neg hp, hl]

/-- C4 witness: the amended theorem applied at a concrete model map and
telemetry record. -/
theorem claim_C4_witness :
    ((200 : ℚ) ≠ 0 ∧
      lookupAssoc [(devN, PerfModel.mk [1, 0] 1)] devN = some (PerfModel.mk [1, 0] 1) ∧
      updateCapacityRound1 [(devN, PerfModel.mk [1, 0] 1)] devN 1000 1100 200
        = .ok (setAssoc [(devN, PerfModel.mk [1, 0] 1)] devN
            ⟨(PerfModel.mk ([1, 0] : List ℚ) 1).coefficients,
             pyTrunc (((1000 : ℚ) - 1100 + 200) / 200)⟩)) :=
  ⟨by norm_num, by simp [lookupAssoc],
   claim_C4_amended.2 [(devN, PerfModel.mk [1, 0] 1)] devN 1000 1100 200
     (PerfModel.mk [1, 0] 1) (by norm_num) (by simp [lookupAssoc])⟩

/-- C5 counterexample: with `peakMemoryThisTask = 0` the round-1 update
raises an uncaught `ZeroDivisionError` (embedded as `.error .zeroDivision`)
— there is no `InvalidSample` condition, and no fallback state with
capacity 1 is ever produced. -/
theorem claim_C5_counterexample :
    updateCapacityRound1 (create_model [] devN 1) devN 1000 400 0
      = .error .zeroDivision ∧
    (updateCapacityRound1 (create_model [] devN 1) devN 1000 400 0).isOk = false := by
  have h : updateCapacityRound1 (create_model [] devN 1) devN 1000 400 0
      = .error .zeroDivision := by
    simp [updateCapacityRound1, estimateCapacity]
  exact ⟨h, by rw [h]; rfl⟩

/-- C5 amended: when `peakMemoryThisTask == 0`, the round-1 capacity
computation fails with an uncaught division-by-zero error for every model
map, device and remaining telemetry values; no fallback to capacity 1
happens and no updated map is produced. -/
theorem claim_C5_amended (models : ModelsMap) (dev : DevKey) (total allOther : ℚ) :
    updateCapacityRound1 models dev total allOther 0 = .error .zeroDivision := by
  simp [updateCapacityRound1, estimateCapacity]

/-- C9: the round-1 update of a device's model keeps its polynomial
coefficients and touches no other entry; the round-2 refit replaces every
entry's coefficients but keeps its capacity; and `aggregate_fit` in any round
`>= 3` leaves the model map unchanged. -/
theorem claim_C9_frame :
    (∀ (models : ModelsMap) (dev : DevKey) (total allOther thisTask : ℚ)
       (m : PerfModel) (ms1 : ModelsMap),
       lookupAssoc models dev = some m →
       updateCapacityRound1 models dev total allOther thisTask = .ok ms1 →
       (∃ cap : Int, lookupAssoc ms1 dev = some ⟨m.coefficients, cap⟩) ∧
       ∀ k, k ≠ dev → lookupAssoc ms1 k = lookupAssoc models k) ∧
    (∀ (fitFn : DevKey → List ℚ) (models : ModelsMap) (k : DevKey) (m : PerfModel),
       lookupAssoc models k = some m →
       lookupAssoc (updateCoeffsRound2 fitFn models) k = some ⟨fitFn k, m.capacity⟩) ∧
    (∀ (r : Nat) (telemetry : List (DevKey × ℚ × ℚ × ℚ)) (fitFn : DevKey → List ℚ)
       (models : ModelsMap), 3 ≤ r →
       aggregateFitModels r telemetry fitFn models = .ok models) := by
  refine ⟨?_, ?_, ?_⟩
  · intro models dev total allOther thisTask m ms1 hl hu
    rw [updateCapacityRound1] at hu
    cases he : estimateCapacity total allOther thisTask with
    | error e => rw [he] at hu; exact absurd hu (by simp)
    | ok cap =>
        rw [he, hl] at hu
        have hms : ms1 = setAssoc models dev ⟨m.coefficients, cap⟩ := by
          simpa using hu.symm
        subst hms
        refine ⟨⟨cap, lookupAssoc_setAssoc_self models dev _⟩, ?_⟩
        intro k hk
        exact lookupAssoc_setAssoc_ne models dev k _ hk
  · intro fitFn models k m hl
    induction models with
    | nil => simp [lookupAssoc] at hl
    | cons p rest ih =>
        obtain ⟨k1, m1⟩ := p
        by_cases h : k1 = k
        · subst h
          rw [lookupAssoc, if_pos rfl] at hl
          simp only [Option.some.injEq] at hl
          subst hl
          simp [updateCoeffsRound2, lookupAssoc]
        · rw [lookupAssoc, if_neg h] at hl
          simpa [updateCoeffsRound2, lookupAssoc, h] using ih hl
  · intro r telemetry fitFn models hr
    rw [aggregateFitModels, if_neg (by omega), if_neg (by omega)]

/-- C9 witness: the round-2 component of the frame theorem applied at a
concrete one-entry model map: the refit stores new coefficients and keeps
capacity 2. -/
theorem claim_C9_witness :
    lookupAssoc [(devN, PerfModel.mk [1] 2)] devN = some (PerfModel.mk [1] 2) ∧
    lookupAssoc (updateCoeffsRound2 (fun _ => [3]) [(devN, PerfModel.mk [1] 2)]) devN
      = some (PerfModel.mk [3] 2) :=
  ⟨by simp [lookupAssoc],
   claim_C9_frame.2.1 (fun _ => [3]) [(devN, PerfModel.mk [1] 2)] devN
     (PerfModel.mk [1] 2) (by simp [lookupAssoc])⟩

theorem choiceNoReplace_degree_le_five (D : Nat) (ws : List Int)
    (h : IsChoiceNoReplace warmUpPool (D + 1) ws) : D ≤ 5 := by
  obtain ⟨hlen, hnd, hsub⟩ := h
  have hsp : ws.Subperm warmUpPool := hnd.subperm (fun x hx => hsub x hx)
  have hle : ws.length ≤ warmUpPool.length := hsp.length_le
  rw [hlen] at hle
  have : warmUpPool.length = 6 := by decide
  omega

/-- C10: `MAX_POLY_DEG` is declared as 15, yet the constructor's
`choice(list(range(5, 31, 5)), size=resource_poly_degree + 1, replace=False)`
can draw its calibration sizes only when `resource_poly_degree <= 5`: the
pool has six elements, so for every degree `>= 6` no draw of
`degree + 1` distinct sizes exists and the constructor fails; for every
degree `<= 5` a draw exists. -/
theorem claim_C10_degree_bound :
    MAX_POLY_DEG = 15 ∧
    (∀ (D : Nat) (ws : List Int), IsChoiceNoReplace warmUpPool (D + 1) ws → D ≤ 5) ∧
    (∀ D : Nat, 6 ≤ D → ¬ mkWarmUpStepsOK D) ∧
    (∀ D : Nat, D ≤ 5 → mkWarmUpStepsOK D) := by
  refine ⟨rfl, choiceNoReplace_degree_le_five, ?_, ?_⟩
  · intro D hD hok
    obtain ⟨ws, hws⟩ := hok
    exact absurd (choiceNoReplace_degree_le_five D ws hws) (by omega)
  · intro D hD
    refine ⟨warmUpPool.take (D + 1), ?_, ?_, ?_⟩
    · rw [List.length_take]
      have : warmUpPool.length = 6 := by decide
      omega
    · exact (List.take_sublist _ _).nodup (by decide)
    · exact fun x hx => (List.take_sublist _ _).subset hx

/-- C10 witness: the bound applied at degree 6: the constructor's draw is
impossible. -/
theorem claim_C10_witness : 6 ≤ 6 ∧ ¬ mkWarmUpStepsOK 6 :=
  ⟨by decide, claim_C10_degree_bound.2.2.1 6 (by decide)⟩

theorem findIdx_congr {α : Type} (p q : α → Bool) (l : List α)
    (h : ∀ x ∈ l, p x = q x) : l.findIdx p = l.findIdx q := by
  induction l with
  | nil => rfl
  | cons a l ih =>
      rw [List.findIdx_cons, List.findIdx_cons, h a (by simp),
        ih (fun x hx => h x (by simp [hx]))]

theorem listMin_spec (x : ℚ) (xs : List ℚ) :
    listMin (x :: xs) ∈ x :: xs ∧ ∀ y ∈ x :: xs, listMin (x :: xs) ≤ y := by
  have hsome : (x :: xs).min? = some (listMin (x :: xs)) := by
    cases hm : (x :: xs).min? with
    | none => simp at hm
    | some v => simp [listMin, hm]
  constructor
  · exact List.min?_mem (fun a b => min_choice a b) hsome
  · intro y hy
    exact (List.le_min?_iff (fun a b c => le_min_iff) hsome).mp (le_refl _) y hy

theorem specArgmin_eq_idxOfMin (l : List ℚ) (hl : l ≠ []) :
    specArgmin l = idxOfMin l := by
  obtain ⟨x, xs, rfl⟩ : ∃ a as, l = a :: as := by
    cases l with
    | nil => exact absurd rfl hl
    | cons a as => exact ⟨a, as, rfl⟩
  unfold specArgmin idxOfMin
  apply findIdx_congr
  intro z hz
  rw [decide_eq_decide]
  obtain ⟨hmem, hle⟩ := listMin_spec x xs
  constructor
  · intro hall
    exact le_antisymm (hall _ hmem) (hle z hz)
  · intro he y hy
    rw [he]
    exact hle y hy

theorem foldl_max_eq_of_le (a : ℚ) (l : List ℚ) (h : ∀ y ∈ l, y ≤ a) :
    l.foldl max a = a := by
  induction l generalizing a with
  | nil => rfl
  | cons b l ih =>
      rw [List.foldl_cons, max_eq_left (h b (by simp))]
      exact ih a (fun y hy => h y (by simp [hy]))

theorem foldl_intmax_eq_of_le (a : Int) (l : List Int) (h : ∀ y ∈ l, y ≤ a) :
    l.foldl max a = a := by
  induction l generalizing a with
  | nil => rfl
  | cons b l ih =>
      rw [List.foldl_cons, max_eq_left (h b (by simp))]
      exact ih a (fun y hy => h y (by simp [hy]))

theorem specMaxWeight_take (u : String × Int) (rest : List (String × Int))
    (hs : List.Sorted wge (u :: rest)) (n : Nat) (hn : 1 ≤ n) :
    specMaxWeight ((u :: rest).take n) = u.2 := by
  obtain ⟨m, rfl⟩ : ∃ m, n = m + 1 := ⟨n - 1, by omega⟩
  have hall : ∀ b ∈ rest, b.2 ≤ u.2 := fun b hb => (List.sorted_cons.mp hs).1 b hb
  rw [List.take_succ_cons]
  unfold specMaxWeight
  rw [List.map_cons, List.max?_cons']
  simp only [Option.getD_some]
  apply foldl_intmax_eq_of_le
  intro y hy
  obtain ⟨e, he, rfl⟩ := List.mem_map.mp hy
  exact hall e ((List.take_sublist _ _).subset he)

theorem max?_replicate_zero (n : Nat) (hn : 1 ≤ n) :
    (List.replicate n (0 : ℚ)).max? = some 0 := by
  obtain ⟨m, rfl⟩ : ∃ m, n = m + 1 := ⟨n - 1, by omega⟩
  rw [List.replicate_succ, List.max?_cons']
  congr 1
  exact foldl_max_eq_of_le 0 _ (fun y hy => le_of_eq (List.eq_of_mem_replicate hy))

theorem sortUnitsDesc_ne_nil (units : List (String × Int)) (hu : units ≠ []) :
    sortUnitsDesc units ≠ [] := by
  intro h
  have := (List.perm_insertionSort wge units).length_eq
  rw [show List.insertionSort wge units = sortUnitsDesc units from rfl, h] at this
  exact hu (List.eq_nil_of_length_eq_zero this.symm)

/-- C6: `assign` on an empty unit list with a non-empty model map returns the
empty assignment with projected makespan 0 (and no error); `assign` on a
non-empty unit list with an empty model map fails with the `noCapacity`
error (Python: `ValueError` from `min([])`), and with no other error. -/
theorem claim_C6_degenerate :
    (∀ models : ModelsMap, models ≠ [] →
       assignCore models [] = .ok ⟨[], 0⟩) ∧
    (∀ units : List (String × Int), units ≠ [] →
       assignCore [] units = .error .noCapacity) := by
  constructor
  · intro models hm
    have hlen : 1 ≤ models.length := List.length_pos.mpr hm
    have h1 : assignLoopF models (List.replicate models.length 0)
        ((sortUnitsDesc ([] : List (String × Int))).length)
        (sortUnitsDesc ([] : List (String × Int)))
        = Except.ok ([], List.replicate models.length 0) := rfl
    simp only [assignCore, h1, max?_replicate_zero models.length hlen]
  · intro units hu
    cases hs : sortUnitsDesc units with
    | nil => exact absurd hs (sortUnitsDesc_ne_nil units hu)
    | cons u rest =>
        have h1 : assignLoopF [] (List.replicate (List.length ([] : ModelsMap)) 0)
            ((u :: rest).length) (u :: rest) = Except.error AssignError.noCapacity := by
          rw [show (u :: rest).length = rest.length + 1 from rfl]
          simp [assignLoopF]
        simp only [assignCore, hs, h1]

/-- C6 witness: the theorem applied at a one-device model map and at a
one-unit list. -/
theorem claim_C6_witness :
    (([(devN, PerfModel.mk [1, 0] 1)] : ModelsMap) ≠ [] ∧
      assignCore [(devN, PerfModel.mk [1, 0] 1)] [] = .ok ⟨[], 0⟩) ∧
    (([("c1", 5)] : List (String × Int)) ≠ [] ∧
      assignCore [] [("c1", 5)] = .error .noCapacity) :=
  ⟨⟨by simp, claim_C6_degenerate.1 _ (by simp)⟩,
   ⟨by simp, claim_C6_degenerate.2 _ (by simp)⟩⟩

/-- C7: calling `associate_resources` twice with the same unit list from the
state the first call produced yields an identical Assignment: the pass reads
only `self.resources_model` (which it never writes), so the first call's
write to `self.client_configs_map` cannot change the second result. -/
theorem claim_C7_idempotent (s : StratState) (units : List (String × Int))
    (s1 : StratState) (r1 : AssignOut)
    (h : associate_resources s units = .ok (s1, r1)) :
    ∃ s2, associate_resources s1 units = .ok (s2, r1) := by
  unfold associate_resources at h ⊢
  cases hc : assignCore s.resources_model units with
  | error e =>
      rw [hc] at h
      simp at h
  | ok out =>
      rw [hc] at h
      simp only [Except.ok.injEq, Prod.mk.injEq] at h
      obtain ⟨hs1, hr1⟩ := h
      subst hr1
      have hrm : s1.resources_model = s.resources_model := by
        rw [← hs1]
      rw [hrm, hc]
      exact ⟨_, rfl⟩

theorem assignLoopF_eq_spec (models : ModelsMap) (fuel : Nat) :
    ∀ (units : List (String × Int)) (loads : List ℚ),
      List.Sorted wge units →
      assignLoopF models loads fuel units = specAssignLoopF models loads fuel units := by
  induction fuel with
  | zero =>
      intro units loads _
      cases units <;> rfl
  | succ f ih =>
      intro units loads hs
      cases units with
      | nil => rfl
      | cons u rest =>
          simp only [assignLoopF, specAssignLoopF]
          by_cases hL : loads = []
          · rw [if_pos hL, if_pos hL]
          · rw [if_neg hL, if_neg hL, specArgmin_eq_idxOfMin loads hL]
            cases hm : models[idxOfMin loads]? with
            | none => rfl
            | some dm =>
                dsimp only
                by_cases hk :
                    (min dm.2.capacity (Int.ofNat (u :: rest).length)).toNat = 0
                · rw [if_pos hk, if_pos hk]
                · rw [if_neg hk, if_neg hk]
                  rw [specMaxWeight_take u rest hs _ (by omega)]
                  rw [show ((u :: rest).take
                      (min dm.2.capacity (Int.ofNat (u :: rest).length)).toNat).length
                      = (min dm.2.capacity (Int.ofNat (u :: rest).length)).toNat from by
                    rw [List.length_take]
                    exact min_eq_left (Int.toNat_le.mpr (min_le_right _ _))]
                  rw [ih ((u :: rest).drop
                        (min dm.2.capacity (Int.ofNat (u :: rest).length)).toNat)
                      _ (List.Pairwise.sublist (List.drop_sublist _ _) hs)]

/-- C1: on every non-empty unit list and non-empty model map whose
capacities are all at least 1, `associate_resources` computes exactly the
assignment described by the claim: units sorted by weight descending with
ties in original order, then repeatedly the minimum-load device (first in
fixed order on ties) receives a batch of `min(capacity, remaining)` largest
remaining units from the front, its load grows by the model evaluated at the
batch's largest weight, each batch unit gets fractional share
`1/len(batch)`, and the batch is removed until no units remain. -/
theorem claim_C1_assign_refines_spec (models : ModelsMap)
    (units : List (String × Int)) (_hu : units ≠ []) (_hm : models ≠ [])
    (_hcap : ∀ p ∈ models, 1 ≤ p.2.capacity) :
    assignCore models units = specAssignCore models units := by
  simp only [assignCore, specAssignCore]
  rw [assignLoopF_eq_spec models (sortUnitsDesc units).length (sortUnitsDesc units)
    (List.replicate models.length 0) (List.sorted_insertionSort wge units)]

/-- C1 witness: the refinement applied at a concrete two-unit, one-device
instance with capacity 2. -/
theorem claim_C1_witness :
    (([("a", 3), ("b", 7)] : List (String × Int)) ≠ [] ∧
      ([(devN, PerfModel.mk [1, 0] 2)] : ModelsMap) ≠ [] ∧
      (∀ p ∈ ([(devN, PerfModel.mk [1, 0] 2)] : ModelsMap), 1 ≤ p.2.capacity)) ∧
    assignCore [(devN, PerfModel.mk [1, 0] 2)] [("a", 3), ("b", 7)]
      = specAssignCore [(devN, PerfModel.mk [1, 0] 2)] [("a", 3), ("b", 7)] :=
  ⟨⟨by simp, by simp, by decide⟩,
   claim_C1_assign_refines_spec _ _ (by simp) (by simp) (by decide)⟩

/-- C2 counterexample: one device of capacity 2, units `[30, 20, 10]`, model
polynomial `x` (predict(w) = w).  The code batches `[30, 20]` then `[10]` on
the same device and accumulates its expected load, reporting makespan
`predict(30) + predict(10) = 40`, while the claim asserts
`max(predict(30), predict(10)) = 30`. -/
theorem claim_C2_counterexample :
    assignCore [(devN, PerfModel.mk [0, 1] 2)] [("a", 30), ("b", 20), ("c", 10)]
      = .ok ⟨[("a", devN, 1 / 2, 30), ("b", devN, 1 / 2, 20), ("c", devN, 1, 10)], 40⟩ ∧
    max (polyEval [0, 1] 30) (polyEval [0, 1] 10) = 30 ∧ (40 : ℚ) ≠ 30 := by
  have h30 : polyEval [0, 1] 30 = 30 := by simp [polyEval]
  have h10 : polyEval [0, 1] 10 = 10 := by simp [polyEval]
  refine ⟨?_, ?_, by norm_num⟩
  · simp [assignCore, sortUnitsDesc, List.insertionSort, List.orderedInsert, wge,
      assignLoopF, idxOfMin, listMin, List.min?, List.max?, List.findIdx_cons, polyEval]
    norm_num
  · rw [h30, h10, max_eq_left (by norm_num : (10 : ℚ) ≤ 30)]

/-- C2 amended: for every model polynomial, one device of capacity 2 and
units `[30, 20, 10]`, `assign` places units 30 and 20 together in one batch
(each with share 1/2, batch duration predict(30)), then unit 10 alone
(share 1), and the reported projected makespan is
`predict(30) + predict(10)`: the two batches of the same device run one
after the other, so their predicted durations add. -/
theorem claim_C2_amended (cs : List ℚ) :
    assignCore [(devN, PerfModel.mk cs 2)] [("a", 30), ("b", 20), ("c", 10)]
      = .ok ⟨[("a", devN, 1 / 2, 30), ("b", devN, 1 / 2, 20), ("c", devN, 1, 10)],
             polyEval cs 30 + polyEval cs 10⟩ := by
  simp [assignCore, sortUnitsDesc, List.insertionSort, List.orderedInsert, wge,
    assignLoopF, idxOfMin, listMin, List.min?, List.max?, List.findIdx_cons]

/-- C7 witness: a concrete successful pass (one device, one unit) and the
theorem applied to it. -/
theorem claim_C7_witness :
    associate_resources ⟨[(devN, PerfModel.mk [1] 1)], [], [5, 10], 1⟩ [("c1", 5)]
      = .ok (⟨[(devN, PerfModel.mk [1] 1)], [("c1", (devN, 5))], [5, 10], 1⟩,
             ⟨[("c1", devN, 1, 5)], 1⟩) ∧
    ∃ s2, associate_resources
        ⟨[(devN, PerfModel.mk [1] 1)], [("c1", (devN, 5))], [5, 10], 1⟩ [("c1", 5)]
      = .ok (s2, ⟨[("c1", devN, 1, 5)], 1⟩) := by
  have h : associate_resources ⟨[(devN, PerfModel.mk [1] 1)], [], [5, 10], 1⟩ [("c1", 5)]
      = .ok (⟨[(devN, PerfModel.mk [1] 1)], [("c1", (devN, 5))], [5, 10], 1⟩,
             ⟨[("c1", devN, 1, 5)], 1⟩) := by
    simp [associate_resources, assignCore, sortUnitsDesc, List.insertionSort,
      List.orderedInsert, wge, assignLoopF, idxOfMin, listMin, List.min?, List.max?,
      List.findIdx_cons, polyEval, writeConfigs, setAssoc]
  exact ⟨h, claim_C7_idempotent _ _ _ _ h⟩

theorem probeSteps_append (k : DevKey) (l1 l2 : List (String × DevKey × Int)) :
    probeSteps k (l1 ++ l2) = probeSteps k l1 ++ probeSteps k l2 := by
  simp [probeSteps, List.filter_append]

theorem probeSteps_all (k : DevKey) (l : List (String × DevKey × Int))
    (h : ∀ e ∈ l, e.2.1 = k) : probeSteps k l = l.map (fun e => e.2.2) := by
  unfold probeSteps
  rw [List.filter_eq_self.mpr (fun e he => by simp [h e he])]

theorem probeSteps_nil_of (k : DevKey) (l : List (String × DevKey × Int))
    (h : ∀ e ∈ l, e.2.1 ≠ k) : probeSteps k l = [] := by
  unfold probeSteps
  rw [List.filter_eq_nil_iff.mpr (fun e he => by simp [h e he])]
  rfl

theorem assignSteps_spec (k : DevKey) :
    ∀ (ws : List Int) (cs : List String), ws.length ≤ cs.length →
    ∃ l cs1, assignSteps k ws cs = some (l, cs1) ∧
      l.map (fun e => e.2.2) = ws ∧ (∀ e ∈ l, e.2.1 = k) ∧
      cs1.length = cs.length - ws.length := by
  intro ws
  induction ws with
  | nil =>
      intro cs _
      exact ⟨[], cs, rfl, rfl, by simp, by simp⟩
  | cons w ws ih =>
      intro cs hlen
      cases cs with
      | nil => simp at hlen
      | cons c cs =>
          obtain ⟨l, cs1, he, hmap, hdev, hlen1⟩ := ih cs (by simp at hlen; omega)
          refine ⟨(c, k, w) :: l, cs1, ?_, ?_, ?_, ?_⟩
          · simp only [assignSteps, he]
          · simp [hmap]
          · intro e he2
            rcases List.mem_cons.mp he2 with h | h
            · rw [h]
            · exact hdev e h
          · simp only [List.length_cons, hlen1]
            omega

theorem assignProbes_spec (ws : List Int) :
    ∀ (ks : List DevKey) (cs : List String), ks.Nodup →
      ks.length * ws.length ≤ cs.length →
    ∃ l cs1, assignProbes ws ks cs = some (l, cs1) ∧
      (∀ e ∈ l, e.2.1 ∈ ks) ∧
      (∀ k0 ∈ ks, probeSteps k0 l = ws) := by
  intro ks
  induction ks with
  | nil =>
      intro cs _ _
      exact ⟨[], cs, rfl, by simp, by simp⟩
  | cons k ks ih =>
      intro cs hnd hlen
      rw [List.length_cons, Nat.succ_mul] at hlen
      have hw : ws.length ≤ cs.length := by omega
      obtain ⟨l1, cs1, he1, hmap1, hdev1, hlen1⟩ := assignSteps_spec k ws cs hw
      have hrec : ks.length * ws.length ≤ cs1.length := by
        rw [hlen1]
        omega
      obtain ⟨l2, cs2, he2, hin2, hsteps2⟩ :=
        ih cs1 (List.Nodup.of_cons hnd) hrec
      have hkn : k ∉ ks := (List.nodup_cons.mp hnd).1
      refine ⟨l1 ++ l2, cs2, ?_, ?_, ?_⟩
      · simp only [assignProbes, he1, he2]
      · intro e hee
        rcases List.mem_append.mp hee with h | h
        · rw [List.mem_cons]
          exact Or.inl (hdev1 e h)
        · rw [List.mem_cons]
          exact Or.inr (hin2 e h)
      · intro k0 hk0
        rcases List.mem_cons.mp hk0 with h | h
        · subst h
          rw [probeSteps_append, probeSteps_all k0 l1 hdev1,
            probeSteps_nil_of k0 l2 (by
              intro e hee hek
              have hm2 := hin2 e hee
              rw [hek] at hm2
              exact absurd hm2 hkn),
            hmap1, List.append_nil]
        · rw [probeSteps_append,
            probeSteps_nil_of k0 l1 (by
              intro e hee hek
              rw [hdev1 e hee] at hek
              rw [← hek] at h
              exact absurd h hkn),
            hsteps2 k0 h, List.nil_append]

/-- C8: in round 2, every device of the model map receives exactly
`resource_poly_degree + 1` probe workloads whose sizes are the fixed
`warm_up_steps` drawn once in `__init__` — the same pairwise-distinct size
list for every device — and the round-2 configuration leaves both
`warm_up_steps` and `resources_model` unchanged, so a repeated calibration
uses the same sizes. -/
theorem claim_C8_calibration (s : StratState) (clients : List String)
    (hdraw : IsChoiceNoReplace warmUpPool (s.resource_poly_degree + 1) s.warm_up_steps)
    (hkeys : (s.resources_model.map Prod.fst).Nodup)
    (hcl : (s.resource_poly_degree + 1) * s.resources_model.length = clients.length) :
    ∃ s1 l, configure_fit_round2 s clients = .ok (s1, l) ∧
      (∀ k ∈ s.resources_model.map Prod.fst, probeSteps k l = s.warm_up_steps) ∧
      s.warm_up_steps.length = s.resource_poly_degree + 1 ∧
      s.warm_up_steps.Nodup ∧
      s1.warm_up_steps = s.warm_up_steps ∧
      s1.resources_model = s.resources_model := by
  obtain ⟨hlen, hnd, _⟩ := hdraw
  have hmul : (s.resources_model.map Prod.fst).length * s.warm_up_steps.length
      ≤ clients.reverse.length := by
    rw [List.length_map, List.length_reverse, hlen, ← hcl, Nat.mul_comm]
  obtain ⟨l, cs1, he, _, hsteps⟩ :=
    assignProbes_spec s.warm_up_steps (s.resources_model.map Prod.fst)
      clients.reverse hkeys hmul
  refine ⟨StratState.mk s.resources_model
      (l.foldl (fun acc e => setAssoc acc e.1 e.2) s.client_configs_map)
      s.warm_up_steps s.resource_poly_degree, l, ?_, hsteps, hlen, hnd, rfl, rfl⟩
  simp only [configure_fit_round2, he]

/-- C8 witness: the theorem applied at a two-device state with degree 1,
draw `[5, 10]` and four sampled clients. -/
theorem claim_C8_witness :
    (IsChoiceNoReplace warmUpPool
        ((StratState.mk [(devN, PerfModel.mk [1, 0] 1), (devM, PerfModel.mk [1, 0] 1)]
          [] [5, 10] 1).resource_poly_degree + 1)
        (StratState.mk [(devN, PerfModel.mk [1, 0] 1), (devM, PerfModel.mk [1, 0] 1)]
          [] [5, 10] 1).warm_up_steps ∧
      (([(devN, PerfModel.mk [1, 0] 1), (devM, PerfModel.mk [1, 0] 1)].map
          Prod.fst).Nodup) ∧
      (1 + 1) * 2 = (["c1", "c2", "c3", "c4"] : List String).length) ∧
    ∃ s1 l, configure_fit_round2
        (StratState.mk [(devN, PerfModel.mk [1, 0] 1), (devM, PerfModel.mk [1, 0] 1)]
          [] [5, 10] 1) ["c1", "c2", "c3", "c4"] = .ok (s1, l) ∧
      (∀ k ∈ [(devN, PerfModel.mk [1, 0] 1), (devM, PerfModel.mk [1, 0] 1)].map Prod.fst,
        probeSteps k l = [5, 10]) ∧
      ([5, 10] : List Int).length = 1 + 1 ∧
      ([5, 10] : List Int).Nodup ∧
      s1.warm_up_steps = [5, 10] ∧
      s1.resources_model = [(devN, PerfModel.mk [1, 0] 1), (devM, PerfModel.mk [1, 0] 1)] := by
  refine ⟨⟨?_, ?_, ?_⟩, ?_⟩
  · refine ⟨by decide, by decide, by decide⟩
  · simp [devN, devM]
  · decide
  · exact claim_C8_calibration _ _ ⟨by decide, by decide, by decide⟩
      (by simp [devN, devM]) (by decide)

end ResourceAware
